import Mathlib

/-!
# Verification of the `safeinterp` adaptive 1-D interpolation engine

A shallow embedding of `src/safeinterp/core.py` over the reals.  Floating
point numbers are modelled as `ℝ`, numpy arrays as `List ℝ` (or
`List (ℝ × ℝ)` for paired samples), vectorised array operations as
per-point functions mapped over lists, and Python exceptions as
`Except String`.  NaN/Inf inputs have no counterpart in `ℝ`, so the
finiteness checks of `_ensure_sorted_xy` are vacuous in the model;
`np.argsort` is modelled as a stable sort on the (x, y) pairs.
-/

open Real

namespace SafeInterp

open scoped Classical

/-- The duplicate / zero-span guard `1e-12` used throughout `core.py`. -/
noncomputable def EPS : ℝ := 1e-12

/-- `np.clip(t, 0, 1)`. -/
noncomputable def clip01 (t : ℝ) : ℝ := max 0 (min t 1)

/-- The shape kinds accepted by `CurveInterpolator._curve_ratio`
(`core.py` lines 158-238); any other string raises `ValueError`. -/
def isShapeKind (m : String) : Bool :=
  m = "linear" || m = "power" || m = "exp" || m = "logistic" ||
  m = "cos" || m = "sin" || m = "poly2" || m = "poly3"

/-- `CurveInterpolator._curve_ratio` (`core.py` lines 133-241) for a single
scalar `t`: the normalized shape function of each supported kind.  The
unknown-kind `ValueError` is modelled separately by `curveRatioE`; this pure
function returns a junk value 0 on the dead unknown branch.
`np.expm1 z = exp z - 1`; `t ** k` for real `k` is `Real.rpow`. -/
noncomputable def curveRatio (mode : String) (k t : ℝ) : ℝ :=
  if mode = "linear" then t
  else if mode = "power" then t ^ k
  else if mode = "exp" then
    -- very small k degenerates to linear (lines 177-179)
    if |k| < 1e-9 then t
    else
      let denom := Real.exp k - 1
      -- near-zero denominator guard (line 188)
      let denom' := if |denom| < 1e-12 then 1e-12 else denom
      (Real.exp (k * t) - 1) / denom'
  else if mode = "logistic" then
    let v0 := 1 / (1 + Real.exp (0.5 * k))
    let v1 := 1 / (1 + Real.exp (-0.5 * k))
    let denom := v1 - v0
    -- collapsed sigmoid span degenerates to linear (lines 209-211)
    if |denom| < 1e-12 then t
    else (1 / (1 + Real.exp (-k * (t - 0.5))) - v0) / denom
  else if mode = "cos" then 0.5 - 0.5 * Real.cos (Real.pi * t)
  else if mode = "sin" then Real.sin (Real.pi * t / 2)
  else if mode = "poly2" then t * (2 - t)
  else if mode = "poly3" then t ^ (2 : ℕ) * (3 - 2 * t)
  else 0

/-- `_curve_ratio` with its unknown-kind `ValueError` (line 241). -/
noncomputable def curveRatioE (mode : String) (k t : ℝ) : Except String ℝ :=
  if isShapeKind mode then .ok (curveRatio mode k t) else .error "unknown mode"

/-- The sigmoid-span denominator of the logistic branch of `_curve_ratio`. -/
noncomputable def logisticDenom (k : ℝ) : ℝ :=
  1 / (1 + Real.exp (-0.5 * k)) - 1 / (1 + Real.exp (0.5 * k))

/-! ### Shape-function facts -/

lemma expm1_abs_of_k_large (k : ℝ) (hk : 1e-9 ≤ |k|) : 1e-12 < |Real.exp k - 1| := by
  rcases (le_abs'.mp hk).symm with h | h
  · have h1 : k + 1 ≤ Real.exp k := Real.add_one_le_exp k
    rw [abs_of_pos (by linarith)]
    linarith
  · have h1 : (-k) + 1 ≤ Real.exp (-k) := Real.add_one_le_exp (-k)
    have h2 : Real.exp k * Real.exp (-k) = 1 := by
      rw [← Real.exp_add]; simp
    have h3 : 0 < Real.exp k := Real.exp_pos k
    have h4 : Real.exp k < 1 := Real.exp_lt_one_iff.mpr (by linarith)
    rw [abs_of_neg (by linarith)]
    -- exp k = 1 / exp (-k) ≤ 1 / (1 - k) with 1 - k ≥ 1 + 1e-9
    nlinarith [Real.exp_pos (-k)]

lemma sigmoid_mono {z1 z2 : ℝ} (h : z1 ≤ z2) :
    1 / (1 + Real.exp (-z1)) ≤ 1 / (1 + Real.exp (-z2)) := by
  have he : Real.exp (-z2) ≤ Real.exp (-z1) := Real.exp_le_exp.mpr (by linarith)
  have hp : 0 < 1 + Real.exp (-z2) := by positivity
  exact one_div_le_one_div_of_le hp (by linarith)

lemma sigmoid_lt {z1 z2 : ℝ} (h : z1 < z2) :
    1 / (1 + Real.exp (-z1)) < 1 / (1 + Real.exp (-z2)) := by
  have he : Real.exp (-z2) < Real.exp (-z1) := Real.exp_lt_exp.mpr (by linarith)
  have hp : 0 < 1 + Real.exp (-z2) := by positivity
  exact one_div_lt_one_div_of_lt hp (by linarith)

lemma logisticDenom_pos {k : ℝ} (hk : 0 < k) : 0 < logisticDenom k := by
  have h := sigmoid_lt (show -(0.5 * k) < 0.5 * k by linarith)
  simp only [neg_neg] at h
  unfold logisticDenom
  have h1 : -0.5 * k = -(0.5 * k) := by ring
  rw [h1]
  linarith

lemma logisticDenom_neg {k : ℝ} (hk : k < 0) : logisticDenom k < 0 := by
  have h := sigmoid_lt (show 0.5 * k < -(0.5 * k) by linarith)
  simp only [neg_neg] at h
  unfold logisticDenom
  have h1 : -0.5 * k = -(0.5 * k) := by ring
  rw [h1]
  linarith

lemma logisticDenom_zero : logisticDenom 0 = 0 := by
  unfold logisticDenom; norm_num

/-- The logistic numerator `1/(1+exp(-k*(t-0.5)))` is the sigmoid at `k*(t-0.5)`. -/
lemma logistic_num_eq (k t : ℝ) :
    1 / (1 + Real.exp (-k * (t - 0.5))) = 1 / (1 + Real.exp (-(k * (t - 0.5)))) := by
  ring_nf

lemma curveRatio_exp_small {k : ℝ} (h : |k| < 1e-9) (t : ℝ) :
    curveRatio "exp" k t = t := by
  unfold curveRatio
  rw [if_neg (by decide), if_neg (by decide), if_pos (by decide), if_pos h]

lemma curveRatio_logistic_small {k : ℝ} (h : |logisticDenom k| < 1e-12) (t : ℝ) :
    curveRatio "logistic" k t = t := by
  unfold curveRatio
  rw [if_neg (by decide), if_neg (by decide), if_neg (by decide), if_pos (by decide)]
  unfold logisticDenom at h
  exact if_pos h

lemma shapeKind_cases {m : String} (hm : isShapeKind m) :
    m = "linear" ∨ m = "power" ∨ m = "exp" ∨ m = "logistic" ∨
    m = "cos" ∨ m = "sin" ∨ m = "poly2" ∨ m = "poly3" := by
  simp only [isShapeKind, Bool.or_eq_true, decide_eq_true_eq] at hm
  tauto

lemma curveRatio_linear (k t : ℝ) : curveRatio "linear" k t = t := by
  unfold curveRatio
  rw [if_pos rfl]

lemma curveRatio_power (k t : ℝ) : curveRatio "power" k t = t ^ k := by
  unfold curveRatio
  rw [if_neg (by decide), if_pos rfl]

lemma curveRatio_exp_large {k : ℝ} (h : ¬ |k| < 1e-9) (t : ℝ) :
    curveRatio "exp" k t = (Real.exp (k * t) - 1) / (Real.exp k - 1) := by
  unfold curveRatio
  rw [if_neg (by decide), if_neg (by decide), if_pos rfl, if_neg h]
  have hd : ¬ |Real.exp k - 1| < 1e-12 :=
    not_lt.mpr (le_of_lt (expm1_abs_of_k_large k (not_lt.mp h)))
  show (Real.exp (k * t) - 1) /
      (if |Real.exp k - 1| < 1e-12 then 1e-12 else Real.exp k - 1) = _
  rw [if_neg hd]

lemma curveRatio_logistic_large {k : ℝ} (h : ¬ |logisticDenom k| < 1e-12) (t : ℝ) :
    curveRatio "logistic" k t =
      (1 / (1 + Real.exp (-k * (t - 0.5))) - 1 / (1 + Real.exp (0.5 * k))) /
        logisticDenom k := by
  unfold curveRatio
  unfold logisticDenom at h ⊢
  rw [if_neg (by decide), if_neg (by decide), if_neg (by decide), if_pos rfl, if_neg h]

lemma curveRatio_cos (k t : ℝ) :
    curveRatio "cos" k t = 0.5 - 0.5 * Real.cos (Real.pi * t) := by
  unfold curveRatio
  rw [if_neg (by decide), if_neg (by decide), if_neg (by decide), if_neg (by decide),
    if_pos rfl]

lemma curveRatio_sin (k t : ℝ) :
    curveRatio "sin" k t = Real.sin (Real.pi * t / 2) := by
  unfold curveRatio
  rw [if_neg (by decide), if_neg (by decide), if_neg (by decide), if_neg (by decide),
    if_neg (by decide), if_pos rfl]

lemma curveRatio_poly2 (k t : ℝ) : curveRatio "poly2" k t = t * (2 - t) := by
  unfold curveRatio
  rw [if_neg (by decide), if_neg (by decide), if_neg (by decide), if_neg (by decide),
    if_neg (by decide), if_neg (by decide), if_pos rfl]

lemma curveRatio_poly3 (k t : ℝ) : curveRatio "poly3" k t = t ^ (2 : ℕ) * (3 - 2 * t) := by
  unfold curveRatio
  rw [if_neg (by decide), if_neg (by decide), if_neg (by decide), if_neg (by decide),
    if_neg (by decide), if_neg (by decide), if_neg (by decide), if_pos rfl]

/-- Every supported shape function starts at 0 (for `power` the steepness
parameter must be positive: `0 ** 0 = 1` in numpy as in `Real.rpow`). -/
lemma curveRatio_zero {m : String} {k : ℝ} (hm : isShapeKind m)
    (hp : m = "power" → 0 < k) : curveRatio m k 0 = 0 := by
  rcases shapeKind_cases hm with h | h | h | h | h | h | h | h <;> subst h
  · rw [curveRatio_linear]
  · rw [curveRatio_power]
    exact Real.zero_rpow (hp rfl).ne'
  · by_cases hs : |k| < 1e-9
    · rw [curveRatio_exp_small hs]
    · rw [curveRatio_exp_large hs]
      simp
  · by_cases hs : |logisticDenom k| < 1e-12
    · rw [curveRatio_logistic_small hs]
    · rw [curveRatio_logistic_large hs]
      rw [show -k * ((0 : ℝ) - 0.5) = 0.5 * k by ring]
      simp
  · rw [curveRatio_cos]
    simp
  · rw [curveRatio_sin]
    simp
  · rw [curveRatio_poly2]; ring
  · rw [curveRatio_poly3]; ring

/-- Every supported shape function ends at 1. -/
lemma curveRatio_one {m : String} {k : ℝ} (hm : isShapeKind m)
    (hp : m = "power" → 0 < k) : curveRatio m k 1 = 1 := by
  rcases shapeKind_cases hm with h | h | h | h | h | h | h | h <;> subst h
  · rw [curveRatio_linear]
  · rw [curveRatio_power]
    exact Real.one_rpow k
  · by_cases hs : |k| < 1e-9
    · rw [curveRatio_exp_small hs]
    · rw [curveRatio_exp_large hs, mul_one]
      have hne : Real.exp k - 1 ≠ 0 := by
        have := expm1_abs_of_k_large k (not_lt.mp hs)
        intro h0
        rw [h0] at this
        norm_num at this
      exact div_self hne
  · by_cases hs : |logisticDenom k| < 1e-12
    · rw [curveRatio_logistic_small hs]
    · rw [curveRatio_logistic_large hs]
      rw [show -k * ((1 : ℝ) - 0.5) = -0.5 * k by ring]
      have hne : logisticDenom k ≠ 0 := by
        intro h0
        rw [h0] at hs
        norm_num at hs
      have : (1 / (1 + Real.exp (-0.5 * k)) - 1 / (1 + Real.exp (0.5 * k))) =
          logisticDenom k := rfl
      rw [this]
      exact div_self hne
  · rw [curveRatio_cos, mul_one, Real.cos_pi]
    norm_num
  · rw [curveRatio_sin, mul_one, Real.sin_pi_div_two]
  · rw [curveRatio_poly2]; norm_num
  · rw [curveRatio_poly3]; norm_num

/-- Every supported shape function is monotone non-decreasing on `[0, 1]`
(for `power` the steepness parameter must be positive). -/
lemma curveRatio_monoOn {m : String} {k : ℝ} (hm : isShapeKind m)
    (hp : m = "power" → 0 < k) :
    MonotoneOn (curveRatio m k) (Set.Icc (0 : ℝ) 1) := by
  rcases shapeKind_cases hm with h | h | h | h | h | h | h | h <;> subst h
  · intro a _ b _ hab
    rw [curveRatio_linear, curveRatio_linear]
    exact hab
  · intro a ha b _ hab
    rw [curveRatio_power, curveRatio_power]
    exact Real.rpow_le_rpow ha.1 hab (hp rfl).le
  · by_cases hs : |k| < 1e-9
    · intro a _ b _ hab
      rw [curveRatio_exp_small hs, curveRatio_exp_small hs]
      exact hab
    · intro a _ b _ hab
      rw [curveRatio_exp_large hs, curveRatio_exp_large hs]
      have hk0 : k ≠ 0 := by
        intro h0
        subst h0
        norm_num at hs
      rcases hk0.lt_or_lt with hneg | hpos
      · have hd : Real.exp k - 1 < 0 := by
          have := Real.exp_lt_one_iff.mpr hneg
          linarith
        have hz : k * b ≤ k * a := by nlinarith
        have hnum : Real.exp (k * b) - 1 ≤ Real.exp (k * a) - 1 := by
          have := Real.exp_le_exp.mpr hz
          linarith
        exact div_le_div_of_nonpos_of_le hd.le hnum
      · have hd : 0 < Real.exp k - 1 := by
          have := Real.one_lt_exp_iff.mpr hpos
          linarith
        have hz : k * a ≤ k * b := by nlinarith
        have hnum : Real.exp (k * a) - 1 ≤ Real.exp (k * b) - 1 := by
          have := Real.exp_le_exp.mpr hz
          linarith
        gcongr
  · by_cases hs : |logisticDenom k| < 1e-12
    · intro a _ b _ hab
      rw [curveRatio_logistic_small hs, curveRatio_logistic_small hs]
      exact hab
    · intro a _ b _ hab
      rw [curveRatio_logistic_large hs, curveRatio_logistic_large hs]
      have hk0 : k ≠ 0 := by
        intro h0
        subst h0
        rw [logisticDenom_zero] at hs
        norm_num at hs
      rw [show -k * (a - 0.5) = -(k * (a - 0.5)) by ring,
        show -k * (b - 0.5) = -(k * (b - 0.5)) by ring]
      rcases hk0.lt_or_lt with hneg | hpos
      · have hd := logisticDenom_neg hneg
        have hz : k * (b - 0.5) ≤ k * (a - 0.5) := by nlinarith
        have hmono := sigmoid_mono hz
        exact div_le_div_of_nonpos_of_le hd.le (by linarith)
      · have hd := logisticDenom_pos hpos
        have hz : k * (a - 0.5) ≤ k * (b - 0.5) := by nlinarith
        have hmono := sigmoid_mono hz
        gcongr
  · intro a ha b hb hab
    rw [curveRatio_cos, curveRatio_cos]
    have hc := Real.cos_le_cos_of_nonneg_of_le_pi
      (mul_nonneg Real.pi_pos.le ha.1)
      (by nlinarith [Real.pi_pos, hb.2])
      (mul_le_mul_of_nonneg_left hab Real.pi_pos.le)
    linarith
  · intro a ha b hb hab
    rw [curveRatio_sin, curveRatio_sin]
    have hmem : ∀ c : ℝ, c ∈ Set.Icc (0 : ℝ) 1 →
        Real.pi * c / 2 ∈ Set.Icc (-(Real.pi / 2)) (Real.pi / 2) := by
      intro c hc
      constructor
      · nlinarith [Real.pi_pos, hc.1]
      · nlinarith [Real.pi_pos, hc.2]
    exact Real.strictMonoOn_sin.monotoneOn (hmem a ha) (hmem b hb)
      (by nlinarith [Real.pi_pos])
  · intro a ha b hb hab
    rw [curveRatio_poly2, curveRatio_poly2]
    nlinarith [ha.1, ha.2, hb.1, hb.2]
  · intro a ha b hb hab
    rw [curveRatio_poly3, curveRatio_poly3]
    nlinarith [mul_nonneg ha.1 (sub_nonneg.2 ha.2), mul_nonneg hb.1 (sub_nonneg.2 hb.2),
      mul_nonneg ha.1 (sub_nonneg.2 hb.2), mul_nonneg hb.1 (sub_nonneg.2 ha.2),
      sub_nonneg.2 hab, sq_nonneg (b - a)]

/-! ### Preprocessor (`_ensure_sorted_xy`, `core.py` lines 10-45, and the
`__init__` length check, lines 72-79) -/

/-- Cleaned samples: a list of (x, y) pairs. -/
abbrev Samples := List (ℝ × ℝ)

/-- `np.any(np.diff(x) < 0)`: some adjacent pair of x-values decreases. -/
def sortNeeded (xs : List ℝ) : Prop := ¬ List.Chain' (· ≤ ·) xs

/-- `np.argsort(x)` followed by applying the permutation to both arrays,
modelled as a stable sort of the zipped pairs by x. -/
noncomputable def sortPairs (ps : Samples) : Samples :=
  List.insertionSort (fun a b => a.1 ≤ b.1) ps

instance instIsTotalPairFst : IsTotal (ℝ × ℝ) (fun a b => a.1 ≤ b.1) :=
  ⟨fun a b => le_total a.1 b.1⟩

instance instIsTransPairFst : IsTrans (ℝ × ℝ) (fun a b => a.1 ≤ b.1) :=
  ⟨fun _ _ _ h1 h2 => le_trans h1 h2⟩

/-- The tail of the `valid_mask` filter (line 40): an element is kept iff its
x exceeds the x of its *array* predecessor (kept or not) by more than `1e-12`. -/
noncomputable def dedupGo (prev : ℝ × ℝ) : Samples → Samples
  | [] => []
  | p :: rest => if EPS < p.1 - prev.1 then p :: dedupGo p rest else dedupGo p rest

/-- `x[valid_mask], y[valid_mask]` with
`valid_mask = [True] ++ (np.diff(x) > 1e-12)` (lines 40-43). -/
noncomputable def dedupEps : Samples → Samples
  | [] => []
  | p :: rest => p :: dedupGo p rest

/-- `_ensure_sorted_xy` (lines 10-45).  The NaN/Inf check (line 30) is
vacuous over `ℝ`. -/
noncomputable def ensureSortedXY (xs ys : List ℝ) : Except String Samples :=
  if xs.length ≠ ys.length then .error "x and y lengths differ"
  else
    let ps := xs.zip ys
    let ps1 := if sortNeeded xs then sortPairs ps else ps
    .ok (dedupEps ps1)

/-- `CurveInterpolator.__init__` preprocessing: `_ensure_sorted_xy` plus the
`n < 2` check (lines 72-79). -/
noncomputable def mkInterp (xs ys : List ℝ) : Except String Samples :=
  match ensureSortedXY xs ys with
  | .error e => .error e
  | .ok ps => if ps.length < 2 then .error "at least two valid points required" else .ok ps

/-- The Sample Set invariant guaranteed by construction: at least two points
and consecutive x-gaps strictly above `1e-12`. -/
def ValidSamples (ps : Samples) : Prop :=
  2 ≤ ps.length ∧ List.Chain' (fun a b => EPS < b.1 - a.1) ps

lemma dedupGo_sublist : ∀ (l : Samples) (prev : ℝ × ℝ), List.Sublist (dedupGo prev l) l := by
  intro l
  induction l with
  | nil => intro prev; simp [dedupGo]
  | cons p rest ih =>
    intro prev
    unfold dedupGo
    split
    · exact (ih p).cons₂ p
    · exact (ih p).cons p

lemma dedupEps_sublist (l : Samples) : List.Sublist (dedupEps l) l := by
  cases l with
  | nil => simp [dedupEps]
  | cons p rest => exact (dedupGo_sublist rest p).cons₂ p

lemma dedupGo_chain : ∀ (l : Samples) (prev last : ℝ × ℝ),
    List.Chain (fun a b => a.1 ≤ b.1) prev l → last.1 ≤ prev.1 →
    List.Chain' (fun a b => EPS < b.1 - a.1) (last :: dedupGo prev l) := by
  intro l
  induction l with
  | nil => intro prev last _ _; simp [dedupGo]
  | cons p rest ih =>
    intro prev last hch hle
    cases hch with
    | cons hpp hrest =>
      unfold dedupGo
      split
      · rename_i hkeep
        rw [List.chain'_cons]
        exact ⟨by linarith, ih p p hrest le_rfl⟩
      · exact ih p last hrest (le_trans hle hpp)

lemma dedupEps_chain {l : Samples} (h : List.Chain' (fun a b : ℝ × ℝ => a.1 ≤ b.1) l) :
    List.Chain' (fun a b => EPS < b.1 - a.1) (dedupEps l) := by
  cases l with
  | nil => simp [dedupEps]
  | cons p rest => exact dedupGo_chain rest p p h le_rfl

lemma chain_zip_of_chain {xs : List ℝ} (ys : List ℝ) (h : List.Chain' (· ≤ ·) xs) :
    List.Chain' (fun a b : ℝ × ℝ => a.1 ≤ b.1) (xs.zip ys) := by
  induction xs generalizing ys with
  | nil => simp
  | cons x tail ih =>
    cases ys with
    | nil => simp
    | cons y ytail =>
      rw [List.zip_cons_cons]
      apply List.chain'_cons'.mpr
      refine ⟨?_, ih ytail h.tail⟩
      intro b hb
      cases tail with
      | nil => simp at hb
      | cons t ttail =>
        cases ytail with
        | nil => simp at hb
        | cons u utail =>
          rw [List.zip_cons_cons] at hb
          simp at hb
          rw [← hb]
          exact (List.chain'_cons.mp h).1

lemma sortPairs_chain (ps : Samples) :
    List.Chain' (fun a b : ℝ × ℝ => a.1 ≤ b.1) (sortPairs ps) :=
  (List.sorted_insertionSort _ ps).chain'

lemma sortPairs_perm (ps : Samples) : List.Perm (sortPairs ps) ps :=
  List.perm_insertionSort _ ps

/-- The array handed to the dedup mask is non-decreasing in x in both
branches of step 3. -/
lemma preSorted_chain (xs ys : List ℝ) :
    List.Chain' (fun a b : ℝ × ℝ => a.1 ≤ b.1)
      (if sortNeeded xs then sortPairs (xs.zip ys) else xs.zip ys) := by
  by_cases hs : sortNeeded xs
  · rw [if_pos hs]; exact sortPairs_chain _
  · rw [if_neg hs]
    exact chain_zip_of_chain ys (not_not.mp hs)

lemma mkInterp_ok_iff {xs ys : List ℝ} {ps : Samples} :
    mkInterp xs ys = .ok ps ↔
      xs.length = ys.length ∧
      ps = dedupEps (if sortNeeded xs then sortPairs (xs.zip ys) else xs.zip ys) ∧
      2 ≤ ps.length := by
  unfold mkInterp ensureSortedXY
  by_cases hl : xs.length ≠ ys.length
  · rw [if_pos hl]
    simp [hl]
  · rw [if_neg hl]
    have hl' := not_not.mp (by simpa using hl)
    simp only [hl', true_and]
    by_cases h2 : (dedupEps (if sortNeeded xs then sortPairs (xs.zip ys) else xs.zip ys)).length < 2
    · rw [if_pos h2]
      constructor
      · intro h; cases h
      · rintro ⟨rfl, hlen⟩
        omega
    · rw [if_neg h2]
      constructor
      · intro h
        cases h
        exact ⟨rfl, by omega⟩
      · rintro ⟨rfl, _⟩
        rfl

lemma mkInterp_valid {xs ys : List ℝ} {ps : Samples} (h : mkInterp xs ys = .ok ps) :
    ValidSamples ps := by
  obtain ⟨_, hps, hlen⟩ := mkInterp_ok_iff.mp h
  refine ⟨hlen, ?_⟩
  rw [hps]
  exact dedupEps_chain (preSorted_chain xs ys)

/-! ### Slope estimator, monotonicity flag, segment cost and selector
(`core.py` lines 102-128, 90-97, 246-358) -/

/-- `x[i]` of the Sample Set (0 as out-of-range junk). -/
noncomputable def xAt (ps : Samples) (i : ℕ) : ℝ := (ps.getD i (0, 0)).1

/-- `y[i]` of the Sample Set. -/
noncomputable def yAt (ps : Samples) (i : ℕ) : ℝ := (ps.getD i (0, 0)).2

/-- `CurveInterpolator._estimate_slopes` (lines 102-128): chord slope shared
by both points when `n = 2`; otherwise central differences inside and
one-sided differences (with zero-span floored to 1) at the two ends. -/
noncomputable def estimateSlopes (ps : Samples) : List ℝ :=
  let n := ps.length
  if n = 2 then
    let dx := xAt ps 1 - xAt ps 0
    let s := (yAt ps 1 - yAt ps 0) / (if |dx| > EPS then dx else 1)
    [s, s]
  else
    (List.range n).map fun i =>
      if i = 0 then
        let dx := xAt ps 1 - xAt ps 0
        (yAt ps 1 - yAt ps 0) / (if |dx| > EPS then dx else 1)
      else if i = n - 1 then
        let dx := xAt ps (n - 1) - xAt ps (n - 2)
        (yAt ps (n - 1) - yAt ps (n - 2)) / (if |dx| > EPS then dx else 1)
      else
        (yAt ps (i + 1) - yAt ps (i - 1)) / (xAt ps (i + 1) - xAt ps (i - 1))

/-- The Monotonicity Flag computed in `__init__` (lines 90-97). -/
noncomputable def monoDir (ps : Samples) : ℤ :=
  let ysl := ps.map Prod.snd
  let dys := List.zipWith (fun a b => b - a) ysl (ysl.drop 1)
  if ∀ d ∈ dys, -EPS ≤ d then 1
  else if ∀ d ∈ dys, d ≤ EPS then -1
  else 0

/-- The numeric slope probe `dy_dx_at` inside `_segment_cost` (lines 271-278). -/
noncomputable def dyDxAt (mode : String) (k dy span t0 : ℝ) : ℝ :=
  let t1 := clip01 (t0 + 1e-3)
  let t2 := clip01 (t0 - 1e-3)
  let r1 := curveRatio mode k t1
  let r2 := curveRatio mode k t2
  dy / span * ((r1 - r2) / (t1 - t2 + 1e-12))

/-- `CurveInterpolator._segment_cost` (lines 246-312). -/
noncomputable def segmentCost (mdir : ℤ) (mode : String)
    (k y0 y1 span sLeft sRight : ℝ) : ℝ :=
  if span < EPS then 1e9
  else
    let dy := y1 - y0
    let dy0 := dyDxAt mode k dy span 0
    let dy1 := dyDxAt mode k dy span 1
    let c1 := (dy0 - sLeft) ^ (2 : ℕ) + (dy1 - sRight) ^ (2 : ℕ) +
      0.1 * (dy1 - dy0) ^ (2 : ℕ)
    let changeRatio := |dy| / (|y0| + 1e-9)
    let c2 := if (mode = "exp" ∨ mode = "logistic") ∧ changeRatio < 0.2
      then c1 * 1.5 else c1
    if mdir ≠ 0 then
      if mdir > 0 then
        if dy0 < -1e-9 ∨ dy1 < -1e-9 then c2 + 1e6 else c2
      else
        if dy0 > 1e-9 ∨ dy1 > 1e-9 then c2 + 1e6 else c2
    else c2

/-- The fixed candidate table of `_choose_best_segment` (lines 332-338),
in dict-insertion iteration order. -/
noncomputable def candidateTable : List (String × List ℝ) :=
  [("linear", [1.0]),
   ("power", [0.5, 0.8, 1.0, 1.2, 1.5, 2.0]),
   ("exp", [0.5, 1.0, 1.5, 2.0]),
   ("logistic", [2.0, 4.0, 6.0]),
   ("poly3", [1.0])]

/-- The flattened (mode, k) candidate sequence in loop order. -/
noncomputable def candidatePairs : List (String × ℝ) :=
  candidateTable.flatMap fun p => p.2.map fun kk => (p.1, kk)

/-- One step of the `for mode ... for k ...` minimum search: `none` models
the initial `best_cost = float("inf")`, and only a strictly smaller cost
replaces the incumbent. -/
noncomputable def chooseStep (costFn : String → ℝ → ℝ)
    (best : String × ℝ × Option ℝ) (cand : String × ℝ) : String × ℝ × Option ℝ :=
  let c := costFn cand.1 cand.2
  match best.2.2 with
  | none => (cand.1, cand.2, some c)
  | some bc => if c < bc then (cand.1, cand.2, some c) else best

/-- `CurveInterpolator._choose_best_segment` (lines 317-358), generic in the
cost function: the flat-segment short-circuit, else the exhaustive search. -/
noncomputable def chooseBestSegmentGen (costFn : String → ℝ → ℝ) (y0 y1 : ℝ) :
    String × ℝ :=
  if |y1 - y0| / (|y0| + 1e-9) < 0.05 then ("linear", 1.0)
  else
    let r := candidatePairs.foldl (chooseStep costFn) ("linear", 1.0, none)
    (r.1, r.2.1)

/-- `_choose_best_segment` with the instance's cost function. -/
noncomputable def chooseBestSegment (ps : Samples) (i : ℕ) (y0 y1 span : ℝ) :
    String × ℝ :=
  let sLeft := (estimateSlopes ps).getD i 0
  let sRight := (estimateSlopes ps).getD (i + 1) 0
  chooseBestSegmentGen
    (fun m kk => segmentCost (monoDir ps) m kk y0 y1 span sLeft sRight) y0 y1

/-- `CurveInterpolator._auto_segments` (lines 363-379). -/
noncomputable def autoSegments (ps : Samples) : List (String × ℝ) :=
  (List.range (ps.length - 1)).map fun i =>
    chooseBestSegment ps i (yAt ps i) (yAt ps (i + 1)) (xAt ps (i + 1) - xAt ps i)

/-! ### Piecewise evaluator (`core.py` lines 384-486) -/

/-- `CurveInterpolator._single_segment` (lines 438-448), with the
unknown-mode `ValueError` of `_curve_ratio`. -/
noncomputable def singleSegmentE (ps : Samples) (mode : String) (k q : ℝ) :
    Except String ℝ :=
  let x0 := xAt ps 0
  let x1 := xAt ps (ps.length - 1)
  let y0 := yAt ps 0
  let y1 := yAt ps (ps.length - 1)
  let span := x1 - x0
  if span < EPS then .ok y0
  else if isShapeKind mode then
    .ok (y0 + (y1 - y0) * curveRatio mode k (clip01 ((q - x0) / span)))
  else .error "unknown mode"

/-- `np.searchsorted(x, q, side="right") - 1` clipped to `[0, nseg-1]`
(lines 458-459); on the sorted Sample Set the searchsorted insertion point
equals the number of x-values `≤ q`. -/
noncomputable def segIdx (ps : Samples) (q : ℝ) : ℕ :=
  min (ps.countP (fun p => decide (p.1 ≤ q)) - 1) (ps.length - 2)

/-- One query point of `CurveInterpolator._multi_segment` (lines 453-486):
interval lookup, span floored to 1 below epsilon, local normalization,
shape dispatch, rescaling. -/
noncomputable def multiSegmentPointE (ps : Samples) (segs : List (String × ℝ))
    (q : ℝ) : Except String ℝ :=
  let i := segIdx ps q
  if i < segs.length then
    let x0 := xAt ps i
    let y0 := yAt ps i
    let y1 := yAt ps (i + 1)
    let m := (segs.getD i ("linear", 1.0)).1
    let kk := (segs.getD i ("linear", 1.0)).2
    let span := xAt ps (i + 1) - x0
    let span1 := if span < EPS then 1 else span
    let t := clip01 ((q - x0) / span1)
    if isShapeKind m then .ok (y0 + (y1 - y0) * curveRatio m kk t)
    else .error "unknown mode"
  else .error "segment index out of range"

/-- The in-range dispatch of `CurveInterpolator.__call__` (lines 404-425):
manual segments, else named single-segment mode, else auto (best single
segment for two points, auto multi-segment otherwise). -/
noncomputable def evalInsideE (ps : Samples) (mode : String) (k : ℝ)
    (segments : Option (List (String × ℝ))) (q : ℝ) : Except String ℝ :=
  match segments with
  | some segs => multiSegmentPointE ps segs q
  | none =>
    if mode ≠ "auto" then singleSegmentE ps mode k q
    else if ps.length = 2 then
      let mk0 := chooseBestSegment ps 0 (yAt ps 0) (yAt ps 1) (xAt ps 1 - xAt ps 0)
      singleSegmentE ps mk0.1 mk0.2 q
    else multiSegmentPointE ps (autoSegments ps) q

/-! ### Extrapolation engine (`core.py` lines 491-561) -/

/-- `CurveInterpolator._manual_extrap` (lines 520-561); `x[-2], x[-1]` are
`x[n-2], x[n-1]`. -/
noncomputable def manualExtrap (ps : Samples) (side : String) (method : String)
    (q : ℝ) : Except String ℝ :=
  let n := ps.length
  let i0 := if side = "left" then 0 else n - 2
  let i1 := if side = "left" then 1 else n - 1
  let x0 := xAt ps i0
  let x1 := xAt ps i1
  let y0 := yAt ps i0
  let y1 := yAt ps i1
  if method = "edge" then .ok (if side = "left" then y0 else y1)
  else if method = "mirror" then
    let slope := (y1 - y0) / (x1 - x0)
    .ok (if side = "left" then y0 + slope * (x0 - q) else y1 - slope * (q - x1))
  else if method = "linear" then
    let slope := (y1 - y0) / (x1 - x0)
    .ok (if side = "left" then y0 + slope * (q - x0) else y1 + slope * (q - x1))
  else if method = "exp" then
    if y0 ≤ 0 ∨ y1 ≤ 0 then .error "exp extrapolation requires y>0"
    else
      let kk := Real.log (y1 / y0) / (x1 - x0)
      .ok (if side = "left" then y0 * Real.exp (kk * (q - x0))
        else y1 * Real.exp (kk * (q - x1)))
  else if method = "power" then
    if x0 ≤ 0 ∨ x1 ≤ 0 ∨ y0 ≤ 0 ∨ y1 ≤ 0 then
      .error "power extrapolation requires x,y>0"
    else
      let p := Real.log (y1 / y0) / Real.log (x1 / x0)
      .ok (if side = "left" then y0 * (q / x0) ^ p else y1 * (q / x1) ^ p)
  else .error "unknown extrapolation method"

/-- The value of the `linear` extrapolation law (lines 540-543). -/
noncomputable def linearExtrapVal (ps : Samples) (side : String) (q : ℝ) : ℝ :=
  let n := ps.length
  let i0 := if side = "left" then 0 else n - 2
  let i1 := if side = "left" then 1 else n - 1
  let slope := (yAt ps i1 - yAt ps i0) / (xAt ps i1 - xAt ps i0)
  if side = "left" then yAt ps i0 + slope * (q - xAt ps i0)
  else yAt ps i1 + slope * (q - xAt ps i1)

/-- `CurveInterpolator._auto_extrap` (lines 491-515): non-auto methods fall
back to `linear` on failure; `auto` cascades linear → power → exp → mirror
→ edge. -/
noncomputable def autoExtrapE (ps : Samples) (side : String) (method : String)
    (q : ℝ) : Except String ℝ :=
  if method ≠ "auto" then
    match manualExtrap ps side method q with
    | .ok v => .ok v
    | .error _ => manualExtrap ps side "linear" q
  else
    match manualExtrap ps side "linear" q with
    | .ok v => .ok v
    | .error _ =>
      match manualExtrap ps side "power" q with
      | .ok v => .ok v
      | .error _ =>
        match manualExtrap ps side "exp" q with
        | .ok v => .ok v
        | .error _ =>
          match manualExtrap ps side "mirror" q with
          | .ok v => .ok v
          | .error _ => manualExtrap ps side "edge" q

/-! ### Top-level call (`__call__`, `interp_curve`, `batch_interp_curve`) -/

/-- One query point of `CurveInterpolator.__call__` (lines 384-433): the
partition into left / inside / right and the dispatch. -/
noncomputable def evalPointE (ps : Samples) (mode : String) (k : ℝ)
    (segments : Option (List (String × ℝ))) (extrapolate : String) (q : ℝ) :
    Except String ℝ :=
  if q < xAt ps 0 then autoExtrapE ps "left" extrapolate q
  else if q > xAt ps (ps.length - 1) then autoExtrapE ps "right" extrapolate q
  else evalInsideE ps mode k segments q

/-- Error-propagating map over the query array. -/
noncomputable def mapExcept (f : ℝ → Except String ℝ) :
    List ℝ → Except String (List ℝ)
  | [] => .ok []
  | q :: rest =>
    match f q with
    | .error e => .error e
    | .ok v =>
      match mapExcept f rest with
      | .error e => .error e
      | .ok vs => .ok (v :: vs)

/-- `CurveInterpolator.__call__` over a whole query array. -/
noncomputable def evalCall (ps : Samples) (mode : String) (k : ℝ)
    (segments : Option (List (String × ℝ))) (extrapolate : String)
    (qs : List ℝ) : Except String (List ℝ) :=
  mapExcept (evalPointE ps mode k segments extrapolate) qs

/-- `np.linspace(0.0, 1.0, n)`. -/
noncomputable def linspace01 (n : ℕ) : List ℝ :=
  if n = 1 then [0] else (List.range n).map fun i => (i : ℝ) / ((n : ℝ) - 1)

/-- `interp_curve` (`core.py` lines 568-690): the start/end/num shorthand
overrides (x, y, new_x) when fully supplied; missing inputs raise. -/
noncomputable def interpCurve (xOpt yOpt newxOpt : Option (List ℝ))
    (startOpt endOpt : Option ℝ) (numOpt : Option ℕ)
    (mode : String) (k : ℝ) (segments : Option (List (String × ℝ)))
    (extrapolate : String) : Except String (List ℝ) :=
  let args : Option (List ℝ) × Option (List ℝ) × Option (List ℝ) :=
    match startOpt, endOpt, numOpt with
    | some s, some e, some n => (some [0, 1], some [s, e], some (linspace01 n))
    | _, _, _ => (xOpt, yOpt, newxOpt)
  match args with
  | (some x, some y, some nx) =>
    match mkInterp x y with
    | .error e => .error e
    | .ok ps => evalCall ps mode k segments extrapolate nx
  | _ => .error "must provide (x, y, new_x) or (start, end, num)"

/-- A per-category configuration dict for `batch_interp_curve`: outer
`Option` = key present in the dict, inner `Option` (where present) = the
stored value may be `None`.  For x/new_x the code treats a present `None`
like an absent key, so a single `Option` suffices there. -/
structure BatchCfg where
  xOpt : Option (List ℝ)
  yOpt : Option (List ℝ)
  newxOpt : Option (List ℝ)
  startOpt : Option (Option ℝ)
  endOpt : Option (Option ℝ)
  numOpt : Option (Option ℕ)
  modeOpt : Option String
  kOpt : Option ℝ
  segmentsOpt : Option (Option (List (String × ℝ)))
  extrapolateOpt : Option String

/-- The body of the per-category loop of `batch_interp_curve`
(`core.py` lines 842-919). -/
noncomputable def batchOne (cat : String) (cfg : BatchCfg)
    (commonX commonNewX : Option (List ℝ)) (startOpt endOpt : Option ℝ)
    (numOpt : Option ℕ) (mode : String) (k : ℝ)
    (segments : Option (List (String × ℝ))) (extrapolate : String) :
    Except String (List ℝ) :=
  let startUsed := cfg.startOpt.getD startOpt
  let endUsed := cfg.endOpt.getD endOpt
  let numUsed := cfg.numOpt.getD numOpt
  if startUsed.isSome ∧ endUsed.isSome ∧ numUsed.isSome then
    interpCurve none none none startUsed endUsed numUsed
      (cfg.modeOpt.getD mode) (cfg.kOpt.getD k) (cfg.segmentsOpt.getD segments)
      (cfg.extrapolateOpt.getD extrapolate)
  else
    let xRes : Except String (List ℝ) :=
      match cfg.xOpt with
      | some v => .ok v
      | none =>
        match commonX with
        | some c => .ok c
        | none => .error ("category " ++ cat ++ " missing x and no common_x")
    match xRes with
    | .error e => .error e
    | .ok xUsed =>
      match cfg.yOpt with
      | none => .error ("category " ++ cat ++ " missing y")
      | some yUsed =>
        if xUsed.length ≠ yUsed.length then
          .error ("category " ++ cat ++ " x and y lengths differ")
        else
          let nxRes : Except String (List ℝ) :=
            match cfg.newxOpt with
            | some v => .ok v
            | none =>
              match commonNewX with
              | some c => .ok c
              | none =>
                .error ("category " ++ cat ++ " missing new_x and no common_new_x")
          match nxRes with
          | .error e => .error e
          | .ok newxUsed =>
            interpCurve (some xUsed) (some yUsed) (some newxUsed) none none none
              (cfg.modeOpt.getD mode) (cfg.kOpt.getD k)
              (cfg.segmentsOpt.getD segments) (cfg.extrapolateOpt.getD extrapolate)

/-- `batch_interp_curve` (lines 696-921) over an association list of
categories, preserving iteration order. -/
noncomputable def batchInterpCurve (data : List (String × BatchCfg))
    (commonX commonNewX : Option (List ℝ)) (startOpt endOpt : Option ℝ)
    (numOpt : Option ℕ) (mode : String) (k : ℝ)
    (segments : Option (List (String × ℝ))) (extrapolate : String) :
    Except String (List (String × List ℝ)) :=
  match data with
  | [] => .ok []
  | (cat, cfg) :: rest =>
    match batchOne cat cfg commonX commonNewX startOpt endOpt numOpt
        mode k segments extrapolate with
    | .error e => .error e
    | .ok r =>
      match batchInterpCurve rest commonX commonNewX startOpt endOpt numOpt
          mode k segments extrapolate with
      | .error e => .error e
      | .ok rs => .ok ((cat, r) :: rs)

/-! ### Consequences of the Sample Set invariant -/

lemma EPS_pos : (0 : ℝ) < EPS := by norm_num [EPS]

instance instIsTransGap : IsTrans (ℝ × ℝ) (fun a b => EPS < b.1 - a.1) :=
  ⟨by
    intro a b c h1 h2
    have := EPS_pos
    linarith⟩

lemma xAt_get {ps : Samples} {i : ℕ} (h : i < ps.length) :
    xAt ps i = (ps.get ⟨i, h⟩).1 := by
  rw [xAt, List.getD_eq_getElem _ _ h, List.get_eq_getElem]

lemma yAt_get {ps : Samples} {i : ℕ} (h : i < ps.length) :
    yAt ps i = (ps.get ⟨i, h⟩).2 := by
  rw [yAt, List.getD_eq_getElem _ _ h, List.get_eq_getElem]

lemma valid_x_lt {ps : Samples} (hv : ValidSamples ps) {i j : ℕ} (hij : i < j)
    (hj : j < ps.length) : EPS < xAt ps j - xAt ps i := by
  have hp := (List.chain'_iff_pairwise).mp hv.2
  have := List.pairwise_iff_get.mp hp ⟨i, lt_trans hij hj⟩ ⟨j, hj⟩ hij
  rw [xAt_get (lt_trans hij hj), xAt_get hj]
  exact this

lemma valid_x_le {ps : Samples} (hv : ValidSamples ps) {i j : ℕ} (hij : i ≤ j)
    (hj : j < ps.length) : xAt ps i ≤ xAt ps j := by
  rcases eq_or_lt_of_le hij with rfl | hlt
  · exact le_rfl
  · have := valid_x_lt hv hlt hj
    have := EPS_pos
    linarith

lemma valid_adjacent {ps : Samples} (hv : ValidSamples ps) {i : ℕ}
    (hi : i + 1 < ps.length) : EPS < xAt ps (i + 1) - xAt ps i :=
  valid_x_lt hv (Nat.lt_succ_self i) hi

/-! ### The searchsorted count on a sorted Sample Set -/

lemma countP_sorted : ∀ (l : Samples) (q : ℝ) (i : ℕ), i ≤ l.length →
    (∀ j (hj : j < l.length), j < i → (l.get ⟨j, hj⟩).1 ≤ q) →
    (∀ j (hj : j < l.length), i ≤ j → q < (l.get ⟨j, hj⟩).1) →
    l.countP (fun p => decide (p.1 ≤ q)) = i := by
  intro l
  induction l with
  | nil =>
    intro q i hi _ _
    simp only [List.length_nil, Nat.le_zero] at hi
    simp [hi]
  | cons p t ih =>
    intro q i hi hlow hhigh
    cases i with
    | zero =>
      rw [List.countP_eq_zero.mpr]
      intro a ha
      obtain ⟨⟨j, hj⟩, rfl⟩ := List.mem_iff_get.mp ha
      simp only [decide_eq_true_eq]
      exact not_le.mpr (hhigh j hj (Nat.zero_le j))
    | succ i' =>
      rw [List.countP_cons]
      have hp : p.1 ≤ q := by
        have := hlow 0 (by simp) (Nat.succ_pos i')
        simpa using this
      rw [if_pos (by simpa using hp)]
      have ht : t.countP (fun p2 => decide (p2.1 ≤ q)) = i' := by
        apply ih q i'
        · have : i' + 1 ≤ t.length + 1 := by simpa using hi
          omega
        · intro j hj hji
          have := hlow (j + 1) (by simpa using Nat.succ_lt_succ hj)
            (Nat.succ_lt_succ hji)
          simpa using this
        · intro j hj hij
          have := hhigh (j + 1) (by simpa using Nat.succ_lt_succ hj)
            (Nat.succ_le_succ hij)
          simpa using this
      rw [ht]

/-- In-range interval lookup: for `x[i] ≤ q < x[i+1]` the searchsorted
index is `i`. -/
lemma segIdx_of_mem {ps : Samples} {q : ℝ} {i : ℕ} (hv : ValidSamples ps)
    (hi1 : i + 1 < ps.length) (hlow : xAt ps i ≤ q) (hhigh : q < xAt ps (i + 1)) :
    segIdx ps q = i := by
  have hcount : ps.countP (fun p => decide (p.1 ≤ q)) = i + 1 := by
    apply countP_sorted
    · omega
    · intro j hj hji
      rw [← xAt_get hj]
      exact le_trans (valid_x_le hv (by omega) (by omega)) hlow
    · intro j hj hij
      rw [← xAt_get hj]
      exact lt_of_lt_of_le hhigh (valid_x_le hv hij hj)
  unfold segIdx
  rw [hcount]
  omega

/-- Queries at or beyond the last sample land in the last interval. -/
lemma segIdx_ge_last {ps : Samples} {q : ℝ} (hv : ValidSamples ps)
    (hge : xAt ps (ps.length - 1) ≤ q) : segIdx ps q = ps.length - 2 := by
  have hn := hv.1
  have hcount : ps.countP (fun p => decide (p.1 ≤ q)) = ps.length := by
    apply countP_sorted
    · exact le_rfl
    · intro j hj _
      rw [← xAt_get hj]
      exact le_trans (valid_x_le hv (by omega) (by omega)) hge
    · intro j hj hij
      omega
  unfold segIdx
  rw [hcount]
  omega

/-! ### Evaluator lemmas -/

lemma clip01_zero : clip01 0 = 0 := by norm_num [clip01]

lemma clip01_one : clip01 1 = 1 := by norm_num [clip01]

/-- Multi-segment evaluation at a query whose interval index is known:
no span flooring happens on a valid Sample Set, and the result is the local
normalize / shape / rescale formula of that interval. -/
lemma multiSegmentPointE_formula {ps : Samples} {segs : List (String × ℝ)}
    {q : ℝ} {i : ℕ} (hv : ValidSamples ps) (hidx : segIdx ps q = i)
    (hi1 : i + 1 < ps.length) (hiseg : i < segs.length)
    (hm : isShapeKind (segs.getD i ("linear", 1.0)).1) :
    multiSegmentPointE ps segs q = .ok (yAt ps i + (yAt ps (i + 1) - yAt ps i) *
      curveRatio (segs.getD i ("linear", 1.0)).1 (segs.getD i ("linear", 1.0)).2
        (clip01 ((q - xAt ps i) / (xAt ps (i + 1) - xAt ps i)))) := by
  have hspan : ¬ (xAt ps (i + 1) - xAt ps i < EPS) :=
    not_lt.mpr (le_of_lt (valid_adjacent hv hi1))
  unfold multiSegmentPointE
  rw [hidx, if_pos hiseg]
  show (if isShapeKind (segs.getD i ("linear", 1.0)).1 then
      Except.ok (yAt ps i + (yAt ps (i + 1) - yAt ps i) *
        curveRatio (segs.getD i ("linear", 1.0)).1 (segs.getD i ("linear", 1.0)).2
          (clip01 ((q - xAt ps i) /
            (if xAt ps (i + 1) - xAt ps i < EPS then 1 else xAt ps (i + 1) - xAt ps i))))
    else Except.error "unknown mode") = _
  rw [if_pos hm, if_neg hspan]

/-- Single-segment evaluation at the first sample's x gives the first y. -/
lemma singleSegmentE_first {ps : Samples} {mode : String} {k : ℝ}
    (hv : ValidSamples ps) (hm : isShapeKind mode) (hp : mode = "power" → 0 < k) :
    singleSegmentE ps mode k (xAt ps 0) = .ok (yAt ps 0) := by
  have hn := hv.1
  have hspanpos : EPS < xAt ps (ps.length - 1) - xAt ps 0 :=
    valid_x_lt hv (by omega) (by omega)
  unfold singleSegmentE
  rw [if_neg (not_lt.mpr (le_of_lt hspanpos)), if_pos hm]
  rw [sub_self, zero_div, clip01_zero, curveRatio_zero hm hp]
  norm_num

/-- Single-segment evaluation at the last sample's x gives the last y. -/
lemma singleSegmentE_last {ps : Samples} {mode : String} {k : ℝ}
    (hv : ValidSamples ps) (hm : isShapeKind mode) (hp : mode = "power" → 0 < k) :
    singleSegmentE ps mode k (xAt ps (ps.length - 1)) =
      .ok (yAt ps (ps.length - 1)) := by
  have hn := hv.1
  have hspanpos : EPS < xAt ps (ps.length - 1) - xAt ps 0 :=
    valid_x_lt hv (by omega) (by omega)
  have hne : xAt ps (ps.length - 1) - xAt ps 0 ≠ 0 := by
    have := EPS_pos
    linarith
  unfold singleSegmentE
  rw [if_neg (not_lt.mpr (le_of_lt hspanpos)), if_pos hm]
  rw [div_self hne, clip01_one, curveRatio_one hm hp]
  norm_num

/-! ### The candidate table only contains safe (kind, parameter) pairs -/

lemma foldl_chooseStep_mem (costFn : String → ℝ → ℝ) (S : List (String × ℝ)) :
    ∀ (l : List (String × ℝ)) (acc : String × ℝ × Option ℝ),
      (acc.1, acc.2.1) ∈ S → (∀ c ∈ l, c ∈ S) →
      ((l.foldl (chooseStep costFn) acc).1,
        (l.foldl (chooseStep costFn) acc).2.1) ∈ S := by
  intro l
  induction l with
  | nil => intro acc hacc _; simpa using hacc
  | cons c t iht =>
    intro acc hacc hl
    rw [List.foldl_cons]
    apply iht
    · unfold chooseStep
      rcases acc.2.2 with _ | bc
      · simpa using hl c (by simp)
      · simp only
        split
        · simpa using hl c (by simp)
        · exact hacc
    · intro c2 hc2
      exact hl c2 (by simp [hc2])

lemma goodPair_of_mem_choices {p : String × ℝ}
    (hp : p ∈ ("linear", (1.0 : ℝ)) :: candidatePairs) :
    isShapeKind p.1 = true ∧ (p.1 = "power" → 0 < p.2) := by
  have hcand : ("linear", (1.0 : ℝ)) :: candidatePairs =
      [("linear", 1.0), ("linear", 1.0),
       ("power", 0.5), ("power", 0.8), ("power", 1.0), ("power", 1.2),
       ("power", 1.5), ("power", 2.0),
       ("exp", 0.5), ("exp", 1.0), ("exp", 1.5), ("exp", 2.0),
       ("logistic", 2.0), ("logistic", 4.0), ("logistic", 6.0),
       ("poly3", 1.0)] := by
    rfl
  rw [hcand] at hp
  fin_cases hp <;> norm_num [isShapeKind]

/-- The segment selector only ever returns the short-circuit pair or a
candidate from the table. -/
lemma chooseBestSegmentGen_mem (costFn : String → ℝ → ℝ) (y0 y1 : ℝ) :
    chooseBestSegmentGen costFn y0 y1 ∈ ("linear", (1.0 : ℝ)) :: candidatePairs := by
  unfold chooseBestSegmentGen
  by_cases hc : |y1 - y0| / (|y0| + 1e-9) < 0.05
  · rw [if_pos hc]
    simp
  · rw [if_neg hc]
    have := foldl_chooseStep_mem costFn (("linear", (1.0 : ℝ)) :: candidatePairs)
      candidatePairs ("linear", 1.0, none) (by simp) (fun c hc => by simp [hc])
    simpa using this

lemma chooseBestSegment_good (ps : Samples) (i : ℕ) (y0 y1 span : ℝ) :
    isShapeKind (chooseBestSegment ps i y0 y1 span).1 = true ∧
      ((chooseBestSegment ps i y0 y1 span).1 = "power" →
        0 < (chooseBestSegment ps i y0 y1 span).2) := by
  exact goodPair_of_mem_choices (chooseBestSegmentGen_mem _ y0 y1)

/-! ### Extrapolation lemmas -/

lemma manualExtrap_linear (ps : Samples) (side : String) (q : ℝ) :
    manualExtrap ps side "linear" q = .ok (linearExtrapVal ps side q) := by
  unfold manualExtrap linearExtrapVal
  rw [if_neg (by decide), if_neg (by decide), if_pos rfl]

lemma manualExtrap_edge (ps : Samples) (side : String) (q : ℝ) :
    ∃ v, manualExtrap ps side "edge" q = .ok v := by
  unfold manualExtrap
  rw [if_pos rfl]
  exact ⟨_, rfl⟩

/-- `auto` extrapolation always resolves to the linear law: linear is first
in the preference order and never fails. -/
lemma autoExtrapE_auto (ps : Samples) (side : String) (q : ℝ) :
    autoExtrapE ps side "auto" q = .ok (linearExtrapVal ps side q) := by
  unfold autoExtrapE
  rw [if_neg (by simp), manualExtrap_linear]

/-- A failing explicitly-requested method falls back to the linear law. -/
lemma autoExtrapE_fail {ps : Samples} {side method : String} {q : ℝ} {e : String}
    (hm : method ≠ "auto") (hfail : manualExtrap ps side method q = .error e) :
    autoExtrapE ps side method q = .ok (linearExtrapVal ps side q) := by
  unfold autoExtrapE
  rw [if_pos hm, hfail, manualExtrap_linear]

lemma mapExcept_nil (f : ℝ → Except String ℝ) : mapExcept f [] = .ok [] := rfl

lemma mapExcept_singleton (f : ℝ → Except String ℝ) (q : ℝ) {v : ℝ}
    (h : f q = .ok v) : mapExcept f [q] = .ok [v] := by
  unfold mapExcept
  rw [h]
  rfl

lemma mapExcept_pair (f : ℝ → Except String ℝ) (a b : ℝ) {va vb : ℝ}
    (ha : f a = .ok va) (hb : f b = .ok vb) : mapExcept f [a, b] = .ok [va, vb] := by
  have h1 := mapExcept_singleton f b hb
  unfold mapExcept
  rw [ha, h1]

lemma valid_first_le_last {ps : Samples} (hv : ValidSamples ps) :
    xAt ps 0 ≤ xAt ps (ps.length - 1) := by
  have hn := hv.1
  exact valid_x_le hv (by omega) (by omega)

/-- Out-of-range dispatch on the left. -/
lemma evalPointE_left {ps : Samples} {mode : String} {k : ℝ}
    {segments : Option (List (String × ℝ))} {extrapolate : String} {q : ℝ}
    (hq : q < xAt ps 0) :
    evalPointE ps mode k segments extrapolate q =
      autoExtrapE ps "left" extrapolate q := by
  unfold evalPointE
  rw [if_pos hq]

/-- Out-of-range dispatch on the right (needs the first x below the last
so the left test fails). -/
lemma evalPointE_right {ps : Samples} {mode : String} {k : ℝ}
    {segments : Option (List (String × ℝ))} {extrapolate : String} {q : ℝ}
    (hv : ValidSamples ps) (hq : xAt ps (ps.length - 1) < q) :
    evalPointE ps mode k segments extrapolate q =
      autoExtrapE ps "right" extrapolate q := by
  unfold evalPointE
  have h0 : ¬ q < xAt ps 0 :=
    not_lt.mpr (le_of_lt (lt_of_le_of_lt (valid_first_le_last hv) hq))
  rw [if_neg h0, if_pos hq]

/-- The non-auto branch of `_auto_extrap` when the requested method works. -/
lemma autoExtrapE_ok {ps : Samples} {side method : String} {q v : ℝ}
    (hm : method ≠ "auto") (hok : manualExtrap ps side method q = .ok v) :
    autoExtrapE ps side method q = .ok v := by
  unfold autoExtrapE
  rw [if_pos hm, hok]

/-! ### C7: the flat-segment short-circuit of the Segment Selector -/

/-- C7: whenever the relative change `|y1-y0| / (|y0|+1e-9)` of a segment is
below the fixed threshold `0.05`, the Segment Selector returns
`("linear", 1.0)` immediately — for *every* cost function, i.e. without the
cost of any other candidate (shape, parameter) pair being consulted — and
in particular the instance selector `chooseBestSegment` does so. -/
theorem C7_flat_segment_shortcircuit (y0 y1 : ℝ)
    (h : |y1 - y0| / (|y0| + 1e-9) < 0.05) :
    (∀ costFn : String → ℝ → ℝ,
      chooseBestSegmentGen costFn y0 y1 = ("linear", 1.0)) ∧
    (∀ (ps : Samples) (i : ℕ) (span : ℝ),
      chooseBestSegment ps i y0 y1 span = ("linear", 1.0)) := by
  have hgen : ∀ costFn : String → ℝ → ℝ,
      chooseBestSegmentGen costFn y0 y1 = ("linear", 1.0) := by
    intro costFn
    unfold chooseBestSegmentGen
    rw [if_pos h]
  exact ⟨hgen, fun ps i span => hgen _⟩

theorem C7_flat_segment_shortcircuit_witness :
    |(1.01 : ℝ) - 1| / (|(1 : ℝ)| + 1e-9) < 0.05 ∧
    chooseBestSegmentGen (fun _ _ => 0) 1 1.01 = ("linear", 1.0) := by
  have h : |(1.01 : ℝ) - 1| / (|(1 : ℝ)| + 1e-9) < 0.05 := by
    rw [abs_of_pos (by norm_num), abs_of_pos (by norm_num)]
    norm_num
  exact ⟨h, (C7_flat_segment_shortcircuit 1 1.01 h).1 _⟩

/-! ### C9: auto extrapolation coincides with linear extrapolation -/

/-- C9: on a valid Sample Set, evaluating an out-of-range query with
`extrapolate="auto"` returns exactly the same value as with
`extrapolate="linear"`: linear is first in the auto preference order and
never fails, so the other laws are never reached. -/
theorem C9_auto_extrap_eq_linear (ps : Samples) (mode : String) (k : ℝ)
    (segments : Option (List (String × ℝ))) (q : ℝ) (hv : ValidSamples ps)
    (hq : q < xAt ps 0 ∨ xAt ps (ps.length - 1) < q) :
    evalCall ps mode k segments "auto" [q] =
      evalCall ps mode k segments "linear" [q] := by
  unfold evalCall
  rcases hq with hl | hr
  · have h1 : evalPointE ps mode k segments "auto" q =
        .ok (linearExtrapVal ps "left" q) := by
      rw [evalPointE_left hl, autoExtrapE_auto]
    have h2 : evalPointE ps mode k segments "linear" q =
        .ok (linearExtrapVal ps "left" q) := by
      rw [evalPointE_left hl]
      exact autoExtrapE_ok (by decide) (manualExtrap_linear ps "left" q)
    rw [mapExcept_singleton _ _ h1, mapExcept_singleton _ _ h2]
  · have h1 : evalPointE ps mode k segments "auto" q =
        .ok (linearExtrapVal ps "right" q) := by
      rw [evalPointE_right hv hr, autoExtrapE_auto]
    have h2 : evalPointE ps mode k segments "linear" q =
        .ok (linearExtrapVal ps "right" q) := by
      rw [evalPointE_right hv hr]
      exact autoExtrapE_ok (by decide) (manualExtrap_linear ps "right" q)
    rw [mapExcept_singleton _ _ h1, mapExcept_singleton _ _ h2]

theorem C9_auto_extrap_eq_linear_witness :
    ValidSamples [((0 : ℝ), (0 : ℝ)), (1, 1)] ∧
    evalCall [((0 : ℝ), (0 : ℝ)), (1, 1)] "auto" 1 none "auto" [5] =
      evalCall [((0 : ℝ), (0 : ℝ)), (1, 1)] "auto" 1 none "linear" [5] := by
  have hv : ValidSamples [((0 : ℝ), (0 : ℝ)), (1, 1)] := by
    refine ⟨by norm_num, ?_⟩
    norm_num [List.chain'_cons, List.chain'_singleton, EPS]
  refine ⟨hv, C9_auto_extrap_eq_linear _ "auto" 1 none 5 hv (Or.inr ?_)⟩
  norm_num [xAt, List.getD_cons_succ, List.getD_cons_zero]

/-! ### C10: unknown extrapolation method names are silently downgraded -/

/-- Any method name outside the five laws and `auto` makes `_manual_extrap`
raise its final unknown-method error. -/
lemma manualExtrap_unknown {ps : Samples} {side method : String} {q : ℝ}
    (h1 : method ≠ "edge") (h2 : method ≠ "mirror") (h3 : method ≠ "linear")
    (h4 : method ≠ "exp") (h5 : method ≠ "power") :
    manualExtrap ps side method q = .error "unknown extrapolation method" := by
  unfold manualExtrap
  rw [if_neg h1, if_neg h2, if_neg h3, if_neg h4, if_neg h5]

/-- C10: explicitly requesting an extrapolation method name outside
{edge, linear, exp, power, mirror, auto} raises no error at the public
interface: the internal unknown-method failure is caught and the
out-of-range value is computed by linear extrapolation instead. -/
theorem C10_unknown_method_is_linear (ps : Samples) (mode : String) (k : ℝ)
    (segments : Option (List (String × ℝ))) (method : String) (q : ℝ)
    (hv : ValidSamples ps)
    (hm : method ∉ (["edge", "linear", "exp", "power", "mirror", "auto"] : List String))
    (hq : q < xAt ps 0 ∨ xAt ps (ps.length - 1) < q) :
    evalCall ps mode k segments method [q] =
      .ok [if q < xAt ps 0 then linearExtrapVal ps "left" q
           else linearExtrapVal ps "right" q] := by
  simp only [List.mem_cons, List.mem_singleton, not_or] at hm
  obtain ⟨h1, h2, h3, h4, h5, h6, -⟩ := hm
  have hfail : ∀ side, manualExtrap ps side method q =
      .error "unknown extrapolation method" :=
    fun side => manualExtrap_unknown h1 h5 h2 h3 h4
  unfold evalCall
  rcases hq with hl | hr
  · rw [mapExcept_singleton _ _ (by
      rw [evalPointE_left hl]
      exact autoExtrapE_fail h6 (hfail "left"))]
    rw [if_pos hl]
  · have h0 : ¬ q < xAt ps 0 :=
      not_lt.mpr (le_of_lt (lt_of_le_of_lt (valid_first_le_last hv) hr))
    rw [mapExcept_singleton _ _ (by
      rw [evalPointE_right hv hr]
      exact autoExtrapE_fail h6 (hfail "right"))]
    rw [if_neg h0]

theorem C10_unknown_method_is_linear_witness :
    ValidSamples [((0 : ℝ), (0 : ℝ)), (1, 1)] ∧
    evalCall [((0 : ℝ), (0 : ℝ)), (1, 1)] "auto" 1 none "bogus" [5] =
      .ok [linearExtrapVal [((0 : ℝ), (0 : ℝ)), (1, 1)] "right" 5] := by
  have hv : ValidSamples [((0 : ℝ), (0 : ℝ)), (1, 1)] := by
    refine ⟨by norm_num, ?_⟩
    norm_num [List.chain'_cons, List.chain'_singleton, EPS]
  have hx : xAt [((0 : ℝ), (0 : ℝ)), (1, 1)] (2 - 1) < 5 := by
    norm_num [xAt, List.getD_cons_succ, List.getD_cons_zero]
  have h := C10_unknown_method_is_linear _ "auto" 1 none "bogus" 5 hv
    (by decide) (Or.inr hx)
  refine ⟨hv, ?_⟩
  rw [h, if_neg (not_lt.mpr (le_of_lt (lt_of_le_of_lt (valid_first_le_last hv) hx)))]

/-! ### C3: failing explicit extrapolation methods downgrade to linear -/

/-- C3: for an out-of-range query and an explicitly requested method other
than `auto` whose evaluation fails (e.g. `exp` with a non-positive boundary
y, `power` with a non-positive boundary x or y), no error reaches the
caller: the value is computed by the `linear` law from the same boundary
samples. -/
theorem C3_failed_extrap_downgrades_to_linear (ps : Samples) (mode : String)
    (k : ℝ) (segments : Option (List (String × ℝ))) (method : String) (q : ℝ)
    (hv : ValidSamples ps) (hm : method ≠ "auto") :
    (∀ e, q < xAt ps 0 → manualExtrap ps "left" method q = .error e →
      evalCall ps mode k segments method [q] =
        .ok [linearExtrapVal ps "left" q]) ∧
    (∀ e, xAt ps (ps.length - 1) < q →
      manualExtrap ps "right" method q = .error e →
      evalCall ps mode k segments method [q] =
        .ok [linearExtrapVal ps "right" q]) := by
  constructor
  · intro e hl hfail
    unfold evalCall
    rw [mapExcept_singleton _ _ (by
      rw [evalPointE_left hl]
      exact autoExtrapE_fail hm hfail)]
  · intro e hr hfail
    unfold evalCall
    rw [mapExcept_singleton _ _ (by
      rw [evalPointE_right hv hr]
      exact autoExtrapE_fail hm hfail)]

theorem C3_failed_extrap_downgrades_to_linear_witness :
    manualExtrap [((1 : ℝ), (0 : ℝ)), (2, 4)] "left" "exp" 0 =
      .error "exp extrapolation requires y>0" ∧
    evalCall [((1 : ℝ), (0 : ℝ)), (2, 4)] "auto" 1 none "exp" [0] =
      .ok [linearExtrapVal [((1 : ℝ), (0 : ℝ)), (2, 4)] "left" 0] := by
  have hv : ValidSamples [((1 : ℝ), (0 : ℝ)), (2, 4)] := by
    refine ⟨by norm_num, ?_⟩
    norm_num [List.chain'_cons, List.chain'_singleton, EPS]
  have hfail : manualExtrap [((1 : ℝ), (0 : ℝ)), (2, 4)] "left" "exp" 0 =
      .error "exp extrapolation requires y>0" := by
    unfold manualExtrap
    rw [if_neg (by decide), if_neg (by decide), if_neg (by decide), if_pos rfl]
    rw [if_pos]
    left
    norm_num [yAt, List.getD_cons_zero]
  have hq : (0 : ℝ) < xAt [((1 : ℝ), (0 : ℝ)), (2, 4)] 0 := by
    norm_num [xAt, List.getD_cons_zero]
  exact ⟨hfail, (C3_failed_extrap_downgrades_to_linear _ "auto" 1 none "exp" 0 hv
    (by decide)).1 _ hq hfail⟩

/-! ### C4: the preprocessor contract -/

/-- C4: the constructor's preprocessing rejects length mismatches, sorts the
pairs by x (stable pairing: every surviving sample is one of the input
pairs, in x-sorted order) exactly when x is not already non-decreasing,
drops every sample within `1e-12` of its (already-sorted) predecessor
keeping the first occurrence, and either yields a Sample Set with strictly
increasing x (consecutive gaps above `1e-12`) and at least two points, or
raises.  (The finiteness requirement is vacuous over `ℝ`.) -/
theorem C4_preprocessor_spec (xs ys : List ℝ) :
    (xs.length ≠ ys.length → ∃ e, mkInterp xs ys = .error e) ∧
    (∀ ps, mkInterp xs ys = .ok ps →
      ps = dedupEps (if sortNeeded xs then sortPairs (xs.zip ys) else xs.zip ys) ∧
      List.Chain' (fun a b => EPS < b.1 - a.1) ps ∧
      2 ≤ ps.length ∧
      ∀ p ∈ ps, p ∈ xs.zip ys) ∧
    (xs.length = ys.length →
      (dedupEps (if sortNeeded xs then sortPairs (xs.zip ys)
        else xs.zip ys)).length < 2 →
      ∃ e, mkInterp xs ys = .error e) := by
  refine ⟨?_, ?_, ?_⟩
  · intro hlen
    refine ⟨"x and y lengths differ", ?_⟩
    unfold mkInterp ensureSortedXY
    rw [if_pos hlen]
  · intro ps hok
    obtain ⟨hlen, hps, h2⟩ := mkInterp_ok_iff.mp hok
    refine ⟨hps, ?_, h2, ?_⟩
    · rw [hps]
      exact dedupEps_chain (preSorted_chain xs ys)
    · intro p hp
      rw [hps] at hp
      have hsub := dedupEps_sublist
        (if sortNeeded xs then sortPairs (xs.zip ys) else xs.zip ys)
      have hmem := hsub.mem hp
      by_cases hs : sortNeeded xs
      · rw [if_pos hs] at hmem
        exact (sortPairs_perm (xs.zip ys)).mem_iff.mp hmem
      · rwa [if_neg hs] at hmem
  · intro hlen h2
    refine ⟨"at least two valid points required", ?_⟩
    unfold mkInterp ensureSortedXY
    rw [if_neg (not_not_intro hlen)]
    exact if_pos h2

theorem C4_preprocessor_spec_witness :
    mkInterp [(0 : ℝ), 0, 1] [(5 : ℝ), 6, 7] = .ok [((0 : ℝ), (5 : ℝ)), (1, 7)] ∧
    List.Chain' (fun a b => EPS < b.1 - a.1) [((0 : ℝ), (5 : ℝ)), (1, 7)] ∧
    2 ≤ ([((0 : ℝ), (5 : ℝ)), (1, 7)] : Samples).length ∧
    ∀ p ∈ ([((0 : ℝ), (5 : ℝ)), (1, 7)] : Samples),
      p ∈ ([(0 : ℝ), 0, 1].zip [(5 : ℝ), 6, 7]) := by
  have hnosort : ¬ sortNeeded [(0 : ℝ), 0, 1] := by
    unfold sortNeeded
    rw [not_not]
    norm_num [List.chain'_cons, List.chain'_singleton]
  have hdedup : dedupEps ([(0 : ℝ), 0, 1].zip [(5 : ℝ), 6, 7]) =
      [((0 : ℝ), (5 : ℝ)), (1, 7)] := by
    show dedupEps [((0 : ℝ), (5 : ℝ)), (0, 6), (1, 7)] = _
    norm_num [dedupEps, dedupGo, EPS]
  have hok : mkInterp [(0 : ℝ), 0, 1] [(5 : ℝ), 6, 7] =
      .ok [((0 : ℝ), (5 : ℝ)), (1, 7)] := by
    apply mkInterp_ok_iff.mpr
    refine ⟨by norm_num, ?_, by norm_num⟩
    rw [if_neg hnosort, hdedup]
  have h := (C4_preprocessor_spec [(0 : ℝ), 0, 1] [(5 : ℝ), 6, 7]).2.1 _ hok
  exact ⟨hok, h.2.1, h.2.2.1, h.2.2.2⟩

/-! ### C2: input-form validation of `interp_curve` -/

/-- C2 counterexample: supplying *both* input forms at once does not raise —
`interp_curve` silently uses the (start, end, num) form and returns a
result (here `num = 0`, so an empty query array and an empty result). -/
theorem C2_counterexample :
    interpCurve (some [3]) (some [4]) (some [9]) (some 0) (some 1) (some 0)
      "auto" 1 none "edge" = .ok [] := by
  have hm : mkInterp [(0 : ℝ), 1] [(0 : ℝ), 1] = .ok [((0 : ℝ), (0 : ℝ)), (1, 1)] := by
    apply mkInterp_ok_iff.mpr
    refine ⟨by norm_num, ?_, by norm_num⟩
    rw [if_neg (by
      unfold sortNeeded
      rw [not_not]
      norm_num [List.chain'_cons, List.chain'_singleton])]
    show _ = dedupEps [((0 : ℝ), (0 : ℝ)), (1, 1)]
    norm_num [dedupEps, dedupGo, EPS]
  have hlin : linspace01 0 = [] := by norm_num [linspace01]
  unfold interpCurve
  simp only
  rw [hlin, hm]
  rfl

/-- C2 (amended): the call raises the missing-input error when *neither*
form is fully supplied; when the (start, end, num) form is fully supplied
the call proceeds with it and any (x, y, new_x) arguments are ignored
rather than raising. -/
theorem C2_input_forms_amended (xOpt yOpt newxOpt : Option (List ℝ))
    (startOpt endOpt : Option ℝ) (numOpt : Option ℕ) (mode : String) (k : ℝ)
    (segments : Option (List (String × ℝ))) (extrapolate : String) :
    ((startOpt = none ∨ endOpt = none ∨ numOpt = none) →
      (xOpt = none ∨ yOpt = none ∨ newxOpt = none) →
      interpCurve xOpt yOpt newxOpt startOpt endOpt numOpt
        mode k segments extrapolate =
        .error "must provide (x, y, new_x) or (start, end, num)") ∧
    (∀ s e n, interpCurve xOpt yOpt newxOpt (some s) (some e) (some n)
        mode k segments extrapolate =
      interpCurve none none none (some s) (some e) (some n)
        mode k segments extrapolate) := by
  constructor
  · intro h1 h2
    rcases startOpt with _ | s <;> rcases endOpt with _ | e <;>
      rcases numOpt with _ | n <;>
      rcases xOpt with _ | xv <;> rcases yOpt with _ | yv <;>
      rcases newxOpt with _ | nv <;>
      first
        | rfl
        | simp_all
  · intro s e n
    rfl

theorem C2_input_forms_amended_witness :
    interpCurve none none none none none none "auto" 1 none "edge" =
      .error "must provide (x, y, new_x) or (start, end, num)" ∧
    interpCurve (some [3]) (some [4]) (some [9]) (some 0) (some 1) (some 0)
      "auto" 1 none "edge" =
    interpCurve none none none (some 0) (some 1) (some 0)
      "auto" 1 none "edge" :=
  ⟨(C2_input_forms_amended none none none none none none "auto" 1 none
      "edge").1 (Or.inl rfl) (Or.inl rfl),
   (C2_input_forms_amended (some [3]) (some [4]) (some [9]) none none none
      "auto" 1 none "edge").2 0 1 0⟩

/-! ### C6: the shape-function library -/

/-- C6 counterexample: the claim quantifies over *every* steepness
parameter, but `power` with `k = 0` gives `r(0) = 0 ** 0 = 1 ≠ 0`
(numpy and `Real.rpow` agree that `0 ** 0 = 1`). -/
theorem C6_counterexample : curveRatio "power" 0 0 = 1 ∧ (1 : ℝ) ≠ 0 := by
  constructor
  · rw [curveRatio_power]
    exact Real.rpow_zero 0
  · norm_num

/-- C6 (amended): for every supported shape kind and every steepness
parameter — with the power parameter restricted to be positive — the shape
function is monotone non-decreasing on [0, 1] and satisfies r(0)=0, r(1)=1;
in the degenerate fallback cases (exp with near-zero parameter, logistic
with numerically collapsed sigmoid span) it equals the linear shape. -/
theorem C6_shape_library (mode : String) (k : ℝ) (hm : isShapeKind mode = true)
    (hp : mode = "power" → 0 < k) :
    MonotoneOn (curveRatio mode k) (Set.Icc (0 : ℝ) 1) ∧
    curveRatio mode k 0 = 0 ∧
    curveRatio mode k 1 = 1 ∧
    (|k| < 1e-9 → ∀ t, curveRatio "exp" k t = t) ∧
    (|logisticDenom k| < 1e-12 → ∀ t, curveRatio "logistic" k t = t) :=
  ⟨curveRatio_monoOn hm hp, curveRatio_zero hm hp, curveRatio_one hm hp,
   fun hs t => curveRatio_exp_small hs t,
   fun hs t => curveRatio_logistic_small hs t⟩

theorem C6_shape_library_witness :
    isShapeKind "cos" = true ∧
    MonotoneOn (curveRatio "cos" 1) (Set.Icc (0 : ℝ) 1) ∧
    curveRatio "cos" 1 0 = 0 ∧ curveRatio "cos" 1 1 = 1 := by
  have h := C6_shape_library "cos" 1 (by decide) (by intro hc; exact absurd hc (by decide))
  exact ⟨by decide, h.1, h.2.1, h.2.2.1⟩

/-! ### C1: boundary exactness -/

lemma autoSegments_length (ps : Samples) :
    (autoSegments ps).length = ps.length - 1 := by
  unfold autoSegments
  simp

lemma autoSegments_good (ps : Samples) :
    ∀ p ∈ autoSegments ps, isShapeKind p.1 = true ∧ (p.1 = "power" → 0 < p.2) := by
  intro p hp
  unfold autoSegments at hp
  obtain ⟨i, _, rfl⟩ := List.mem_map.mp hp
  exact chooseBestSegment_good ps i _ _ _

/-- Multi-segment evaluation at the first sample's own x yields the first y. -/
lemma multiSegment_first {ps : Samples} {segs : List (String × ℝ)}
    (hv : ValidSamples ps) (hlen : segs.length = ps.length - 1)
    (hgood : ∀ p ∈ segs, isShapeKind p.1 = true ∧ (p.1 = "power" → 0 < p.2)) :
    multiSegmentPointE ps segs (xAt ps 0) = .ok (yAt ps 0) := by
  have hn := hv.1
  have hi1 : 0 + 1 < ps.length := by omega
  have hidx : segIdx ps (xAt ps 0) = 0 := by
    apply segIdx_of_mem hv hi1 le_rfl
    have h1 := valid_adjacent hv hi1
    have h2 := EPS_pos
    linarith
  have hiseg : 0 < segs.length := by omega
  have hmem : segs.getD 0 ("linear", 1.0) ∈ segs := by
    rw [List.getD_eq_getElem _ _ hiseg]
    exact List.getElem_mem hiseg
  obtain ⟨hml, hpk⟩ := hgood _ hmem
  rw [multiSegmentPointE_formula hv hidx hi1 hiseg hml]
  rw [sub_self, zero_div, clip01_zero, curveRatio_zero hml hpk]
  norm_num

/-- Multi-segment evaluation at the last sample's own x yields the last y. -/
lemma multiSegment_last {ps : Samples} {segs : List (String × ℝ)}
    (hv : ValidSamples ps) (hlen : segs.length = ps.length - 1)
    (hgood : ∀ p ∈ segs, isShapeKind p.1 = true ∧ (p.1 = "power" → 0 < p.2)) :
    multiSegmentPointE ps segs (xAt ps (ps.length - 1)) =
      .ok (yAt ps (ps.length - 1)) := by
  have hn := hv.1
  have hi1 : ps.length - 2 + 1 < ps.length := by omega
  have hip1 : ps.length - 2 + 1 = ps.length - 1 := by omega
  have hidx : segIdx ps (xAt ps (ps.length - 1)) = ps.length - 2 :=
    segIdx_ge_last hv le_rfl
  have hiseg : ps.length - 2 < segs.length := by omega
  have hmem : segs.getD (ps.length - 2) ("linear", 1.0) ∈ segs := by
    rw [List.getD_eq_getElem _ _ hiseg]
    exact List.getElem_mem hiseg
  obtain ⟨hml, hpk⟩ := hgood _ hmem
  rw [multiSegmentPointE_formula hv hidx hi1 hiseg hml]
  rw [hip1]
  have hne : xAt ps (ps.length - 1) - xAt ps (ps.length - 2) ≠ 0 := by
    have h1 := valid_adjacent hv hi1
    rw [hip1] at h1
    have h2 := EPS_pos
    linarith
  rw [div_self hne, clip01_one, curveRatio_one hml hpk]
  norm_num

/-- The in-range dispatch at the first sample's x, for every safe
configuration. -/
lemma evalInsideE_first {ps : Samples} {mode : String} {k : ℝ}
    {segments : Option (List (String × ℝ))} (hv : ValidSamples ps)
    (hcfg : match segments with
      | some segs => segs.length = ps.length - 1 ∧
          ∀ p ∈ segs, isShapeKind p.1 = true ∧ (p.1 = "power" → 0 < p.2)
      | none => (mode = "auto" ∨ isShapeKind mode = true) ∧
          (mode = "power" → 0 < k)) :
    evalInsideE ps mode k segments (xAt ps 0) = .ok (yAt ps 0) := by
  cases segments with
  | some segs =>
    obtain ⟨hlen, hgood⟩ := hcfg
    unfold evalInsideE
    exact multiSegment_first hv hlen hgood
  | none =>
    obtain ⟨hmm, hpk⟩ := hcfg
    unfold evalInsideE
    by_cases hauto : mode = "auto"
    · subst hauto
      rw [if_neg (by simp)]
      by_cases h2 : ps.length = 2
      · rw [if_pos h2]
        obtain ⟨hg1, hg2⟩ :=
          chooseBestSegment_good ps 0 (yAt ps 0) (yAt ps 1) (xAt ps 1 - xAt ps 0)
        exact singleSegmentE_first hv hg1 hg2
      · rw [if_neg h2]
        exact multiSegment_first hv (autoSegments_length ps) (autoSegments_good ps)
    · rw [if_pos hauto]
      rcases hmm with h | h
      · exact absurd h hauto
      · exact singleSegmentE_first hv h hpk

/-- The in-range dispatch at the last sample's x, for every safe
configuration. -/
lemma evalInsideE_last {ps : Samples} {mode : String} {k : ℝ}
    {segments : Option (List (String × ℝ))} (hv : ValidSamples ps)
    (hcfg : match segments with
      | some segs => segs.length = ps.length - 1 ∧
          ∀ p ∈ segs, isShapeKind p.1 = true ∧ (p.1 = "power" → 0 < p.2)
      | none => (mode = "auto" ∨ isShapeKind mode = true) ∧
          (mode = "power" → 0 < k)) :
    evalInsideE ps mode k segments (xAt ps (ps.length - 1)) =
      .ok (yAt ps (ps.length - 1)) := by
  cases segments with
  | some segs =>
    obtain ⟨hlen, hgood⟩ := hcfg
    unfold evalInsideE
    exact multiSegment_last hv hlen hgood
  | none =>
    obtain ⟨hmm, hpk⟩ := hcfg
    unfold evalInsideE
    by_cases hauto : mode = "auto"
    · subst hauto
      rw [if_neg (by simp)]
      by_cases h2 : ps.length = 2
      · rw [if_pos h2]
        obtain ⟨hg1, hg2⟩ :=
          chooseBestSegment_good ps 0 (yAt ps 0) (yAt ps 1) (xAt ps 1 - xAt ps 0)
        exact singleSegmentE_last hv hg1 hg2
      · rw [if_neg h2]
        exact multiSegment_last hv (autoSegments_length ps) (autoSegments_good ps)
    · rw [if_pos hauto]
      rcases hmm with h | h
      · exact absurd h hauto
      · exact singleSegmentE_last hv h hpk

/-- C1 counterexample: the claim quantifies over every supported
named-mode configuration, but `mode="power", k=0` evaluates the first
sample's own x to the *last* y (`0 ** 0 = 1` in numpy as in `Real.rpow`),
so boundary exactness fails there. -/
theorem C1_counterexample :
    evalCall [((0 : ℝ), (0 : ℝ)), (1, 1)] "power" 0 none "edge" [0] = .ok [1] ∧
    (1 : ℝ) ≠ 0 := by
  refine ⟨?_, by norm_num⟩
  have hsingle : singleSegmentE [((0 : ℝ), (0 : ℝ)), (1, 1)] "power" 0 0 = .ok 1 := by
    unfold singleSegmentE
    norm_num [xAt, yAt, List.getD_cons_zero, List.getD_cons_succ, EPS,
      curveRatio_power, clip01, Real.rpow_zero, isShapeKind]
  have hpt : evalPointE [((0 : ℝ), (0 : ℝ)), (1, 1)] "power" 0 none "edge" 0 =
      .ok 1 := by
    unfold evalPointE
    rw [if_neg (by norm_num [xAt, List.getD_cons_zero]),
      if_neg (by norm_num [xAt, List.getD_cons_zero, List.getD_cons_succ])]
    unfold evalInsideE
    rw [if_pos (by decide)]
    exact hsingle
  exact mapExcept_singleton _ _ hpt

/-- C1 (amended): for every valid Sample Set, evaluation at the first and
last sample's own x returns exactly the first and last y, in auto mode and
in every supported named-mode / segments configuration whose power
parameters are positive. -/
theorem C1_boundary_exactness (ps : Samples) (mode : String) (k : ℝ)
    (segments : Option (List (String × ℝ))) (extrapolate : String)
    (hv : ValidSamples ps)
    (hcfg : match segments with
      | some segs => segs.length = ps.length - 1 ∧
          ∀ p ∈ segs, isShapeKind p.1 = true ∧ (p.1 = "power" → 0 < p.2)
      | none => (mode = "auto" ∨ isShapeKind mode = true) ∧
          (mode = "power" → 0 < k)) :
    evalCall ps mode k segments extrapolate
        [xAt ps 0, xAt ps (ps.length - 1)] =
      .ok [yAt ps 0, yAt ps (ps.length - 1)] := by
  have hfirst : evalPointE ps mode k segments extrapolate (xAt ps 0) =
      .ok (yAt ps 0) := by
    unfold evalPointE
    rw [if_neg (lt_irrefl _), if_neg (not_lt.mpr (valid_first_le_last hv))]
    exact evalInsideE_first hv hcfg
  have hlast : evalPointE ps mode k segments extrapolate
      (xAt ps (ps.length - 1)) = .ok (yAt ps (ps.length - 1)) := by
    unfold evalPointE
    rw [if_neg (not_lt.mpr (valid_first_le_last hv)), if_neg (lt_irrefl _)]
    exact evalInsideE_last hv hcfg
  exact mapExcept_pair _ _ _ hfirst hlast

theorem C1_boundary_exactness_witness :
    ValidSamples [((0 : ℝ), (0 : ℝ)), (10, 5), (20, 30)] ∧
    evalCall [((0 : ℝ), (0 : ℝ)), (10, 5), (20, 30)] "linear" 1 none "edge"
        [0, 20] = .ok [0, 30] := by
  have hv : ValidSamples [((0 : ℝ), (0 : ℝ)), (10, 5), (20, 30)] := by
    refine ⟨by norm_num, ?_⟩
    norm_num [List.chain'_cons, List.chain'_singleton, EPS]
  have h := C1_boundary_exactness [((0 : ℝ), (0 : ℝ)), (10, 5), (20, 30)]
    "linear" 1 none "edge" hv
    ⟨Or.inr (by decide), by intro hc; exact absurd hc (by decide)⟩
  norm_num [xAt, yAt, List.getD_cons_zero, List.getD_cons_succ] at h
  exact ⟨hv, h⟩

/-! ### C5: multi-segment interval assignment and local rescaling -/

/-- C5: every in-range query is assigned to the interval `i` with
`x[i] ≤ q < x[i+1]` (the last interval also includes its right boundary);
on a valid Sample Set the interval span always exceeds `1e-12` — so the
floor-span-to-1 guard is inert — and the query is normalized locally in
that interval, mapped through the interval's Segment Descriptor, and
rescaled into `[y_i, y_{i+1}]`. -/
theorem C5_multiseg_interval (ps : Samples) (segs : List (String × ℝ)) (q : ℝ)
    (i : ℕ) (hv : ValidSamples ps) (hi1 : i + 1 < ps.length)
    (hiseg : i < segs.length)
    (hm : isShapeKind (segs.getD i ("linear", 1.0)).1 = true)
    (hlow : xAt ps i ≤ q)
    (hhigh : q < xAt ps (i + 1) ∨ (i = ps.length - 2 ∧ q = xAt ps (i + 1))) :
    EPS < xAt ps (i + 1) - xAt ps i ∧
    segIdx ps q = i ∧
    multiSegmentPointE ps segs q = .ok (yAt ps i + (yAt ps (i + 1) - yAt ps i) *
      curveRatio (segs.getD i ("linear", 1.0)).1 (segs.getD i ("linear", 1.0)).2
        (clip01 ((q - xAt ps i) / (xAt ps (i + 1) - xAt ps i)))) := by
  have hspan := valid_adjacent hv hi1
  have hidx : segIdx ps q = i := by
    rcases hhigh with h | ⟨hlast, heq⟩
    · exact segIdx_of_mem hv hi1 hlow h
    · subst heq
      have hip1 : i + 1 = ps.length - 1 := by omega
      have h2 : segIdx ps (xAt ps (i + 1)) = ps.length - 2 := by
        apply segIdx_ge_last hv
        rw [← hip1]
      rw [h2, hlast]
  exact ⟨hspan, hidx, multiSegmentPointE_formula hv hidx hi1 hiseg hm⟩

theorem C5_multiseg_interval_witness :
    EPS < xAt [((0 : ℝ), (0 : ℝ)), (1, 2), (3, 5)] (1 + 1) -
      xAt [((0 : ℝ), (0 : ℝ)), (1, 2), (3, 5)] 1 ∧
    segIdx [((0 : ℝ), (0 : ℝ)), (1, 2), (3, 5)] 2 = 1 ∧
    multiSegmentPointE [((0 : ℝ), (0 : ℝ)), (1, 2), (3, 5)]
        [("linear", (1.0 : ℝ)), ("cos", 1.0)] 2 =
      .ok (yAt [((0 : ℝ), (0 : ℝ)), (1, 2), (3, 5)] 1 +
        (yAt [((0 : ℝ), (0 : ℝ)), (1, 2), (3, 5)] (1 + 1) -
          yAt [((0 : ℝ), (0 : ℝ)), (1, 2), (3, 5)] 1) *
        curveRatio
          (([("linear", (1.0 : ℝ)), ("cos", 1.0)].getD 1 ("linear", 1.0)).1)
          (([("linear", (1.0 : ℝ)), ("cos", 1.0)].getD 1 ("linear", 1.0)).2)
          (clip01 ((2 - xAt [((0 : ℝ), (0 : ℝ)), (1, 2), (3, 5)] 1) /
            (xAt [((0 : ℝ), (0 : ℝ)), (1, 2), (3, 5)] (1 + 1) -
              xAt [((0 : ℝ), (0 : ℝ)), (1, 2), (3, 5)] 1)))) := by
  have hv : ValidSamples [((0 : ℝ), (0 : ℝ)), (1, 2), (3, 5)] := by
    refine ⟨by norm_num, ?_⟩
    norm_num [List.chain'_cons, List.chain'_singleton, EPS]
  exact C5_multiseg_interval _ _ 2 1 hv (by norm_num) (by norm_num)
    (by norm_num [List.getD_cons_succ, List.getD_cons_zero]; decide)
    (by norm_num [xAt, List.getD_cons_succ, List.getD_cons_zero])
    (Or.inl (by norm_num [xAt, List.getD_cons_succ, List.getD_cons_zero]))

/-! ### C8: batch / single equivalence -/

lemma batch_singleton (cat : String) (cfg : BatchCfg)
    (commonX commonNewX : Option (List ℝ)) (startOpt endOpt : Option ℝ)
    (numOpt : Option ℕ) (mode : String) (k : ℝ)
    (segments : Option (List (String × ℝ))) (extrapolate : String) :
    batchInterpCurve [(cat, cfg)] commonX commonNewX startOpt endOpt numOpt
        mode k segments extrapolate =
      (batchOne cat cfg commonX commonNewX startOpt endOpt numOpt
        mode k segments extrapolate).map (fun r => [(cat, r)]) := by
  unfold batchInterpCurve
  cases h : batchOne cat cfg commonX commonNewX startOpt endOpt numOpt
      mode k segments extrapolate with
  | error e => simp [Except.map]
  | ok r => simp [Except.map, batchInterpCurve]

/-- C8: a singleton batch call on a category configuration that resolves
(category value over batch value over shared `common_x`/`common_new_x`)
into a complete single-series call equals `interp_curve` invoked directly
with the fully resolved parameters — in the shorthand form, and in the
(x, y, new_x) form whenever the resolved lengths agree. -/
theorem C8_batch_single_equivalence (cat : String) (cfg : BatchCfg)
    (commonX commonNewX : Option (List ℝ)) (startOpt endOpt : Option ℝ)
    (numOpt : Option ℕ) (mode : String) (k : ℝ)
    (segments : Option (List (String × ℝ))) (extrapolate : String) :
    (∀ s e n, cfg.startOpt.getD startOpt = some s →
      cfg.endOpt.getD endOpt = some e → cfg.numOpt.getD numOpt = some n →
      batchInterpCurve [(cat, cfg)] commonX commonNewX startOpt endOpt numOpt
          mode k segments extrapolate =
        (interpCurve none none none (some s) (some e) (some n)
          (cfg.modeOpt.getD mode) (cfg.kOpt.getD k)
          (cfg.segmentsOpt.getD segments)
          (cfg.extrapolateOpt.getD extrapolate)).map (fun r => [(cat, r)])) ∧
    (∀ xU yU nxU,
      (cfg.startOpt.getD startOpt = none ∨ cfg.endOpt.getD endOpt = none ∨
        cfg.numOpt.getD numOpt = none) →
      cfg.xOpt.or commonX = some xU →
      cfg.yOpt = some yU →
      xU.length = yU.length →
      cfg.newxOpt.or commonNewX = some nxU →
      batchInterpCurve [(cat, cfg)] commonX commonNewX startOpt endOpt numOpt
          mode k segments extrapolate =
        (interpCurve (some xU) (some yU) (some nxU) none none none
          (cfg.modeOpt.getD mode) (cfg.kOpt.getD k)
          (cfg.segmentsOpt.getD segments)
          (cfg.extrapolateOpt.getD extrapolate)).map (fun r => [(cat, r)])) := by
  constructor
  · intro s e n hs he hn
    rw [batch_singleton]
    unfold batchOne
    rw [if_pos ⟨by rw [hs]; rfl, by rw [he]; rfl, by rw [hn]; rfl⟩]
    rw [hs, he, hn]
  · intro xU yU nxU hnone hx hy hlen hnx
    rw [batch_singleton]
    unfold batchOne
    rw [if_neg (by
      rcases hnone with h | h | h <;> rw [h] <;> simp)]
    have hyrw := hy
    have hlen' := not_not_intro hlen
    cases hxo : cfg.xOpt with
    | some xv =>
      rw [hxo, Option.or_some, Option.some.injEq] at hx
      subst hx
      rw [hyrw]
      dsimp only
      rw [if_neg hlen']
      cases hnxo : cfg.newxOpt with
      | some nxv =>
        rw [hnxo, Option.or_some, Option.some.injEq] at hnx
        subst hnx
        rfl
      | none =>
        rw [hnxo, Option.none_or] at hnx
        rw [hnx]
    | none =>
      rw [hxo, Option.none_or] at hx
      rw [hx, hyrw]
      dsimp only
      rw [if_neg hlen']
      cases hnxo : cfg.newxOpt with
      | some nxv =>
        rw [hnxo, Option.or_some, Option.some.injEq] at hnx
        subst hnx
        rfl
      | none =>
        rw [hnxo, Option.none_or] at hnx
        rw [hnx]

theorem C8_batch_single_equivalence_witness :
    (BatchCfg.mk none none none (some (some 100)) (some (some 40))
        (some (some 5)) (some "linear") none none none).startOpt.getD none =
      some (100 : ℝ) ∧
    batchInterpCurve
        [("A", BatchCfg.mk none none none (some (some 100)) (some (some 40))
          (some (some 5)) (some "linear") none none none)]
        none none none none none "auto" 1 none "edge" =
      (interpCurve none none none (some 100) (some 40) (some 5)
        "linear" 1 none "edge").map (fun r => [("A", r)]) :=
  ⟨rfl, (C8_batch_single_equivalence "A"
    (BatchCfg.mk none none none (some (some 100)) (some (some 40))
      (some (some 5)) (some "linear") none none none)
    none none none none none "auto" 1 none "edge").1 100 40 5 rfl rfl rfl⟩

end SafeInterp
